import Mathlib

/-!
Verification development for the 1099-NEC batch generator (`src/main.py`).

The Python source is shallowly embedded: pure helpers become Lean functions on
`List Char` / `String`, the background worker becomes a function producing the
list of job-state snapshots (one per lock-protected mutation block), and the
PDF is an abstract document value (pages, interactive-form fields, flags).
CPython `float` arithmetic is modelled exactly as binary64 over `ℚ`
(round-to-nearest, ties-to-even, with signed zero, infinities and NaN).
-/

set_option maxRecDepth 16000

namespace NEC

/-! ## Python string primitives

Python `str.strip()` / `\s` match Unicode whitespace; the embedding carries the
ASCII whitespace characters plus the common Unicode ones (enough for every
string this program manipulates). -/

def pyIsSpace (c : Char) : Bool :=
  c = ' ' || c = '\t' || c = '\n' || c = '\x0d' || c = '\x0b' || c = '\x0c' ||
  c = '\x1c' || c = '\x1d' || c = '\x1e' || c = '\x1f' || c = '\x85' || c = ' '

/-- `str.strip()` on the character list: drop whitespace from both ends. -/
def pyStripList (l : List Char) : List Char :=
  ((l.dropWhile pyIsSpace).reverse.dropWhile pyIsSpace).reverse

def pyStrip (s : String) : String := ⟨pyStripList s.data⟩

/-- `str.lower()` (ASCII case mapping; the program only compares with "nan"). -/
def pyLower (s : String) : String := ⟨s.data.map Char.toLower⟩

/-- `re.sub(r"\s+", " ", s)`: every maximal whitespace run becomes one space
(a whitespace character followed by more whitespace is dropped; the last
character of a run becomes `' '`). -/
def collapseWs : List Char → List Char
  | [] => []
  | [c] => if pyIsSpace c then [' '] else [c]
  | c :: d :: cs =>
    if pyIsSpace c && pyIsSpace d then collapseWs (d :: cs)
    else (if pyIsSpace c then ' ' else c) :: collapseWs (d :: cs)

/-- The characters removed by `re.sub(r'[\\/:*?"<>|]+', "", s)`. -/
def illegalFilenameChars : List Char := ['\\', '/', ':', '*', '?', '\"', '<', '>', '|']

def removeIllegal (l : List Char) : List Char :=
  l.filter (fun c => !(illegalFilenameChars.contains c))

/-! ## Cell values

A spreadsheet cell as seen by the worker (`pd.read_excel(..., dtype=object)`
then `row.get(col)`): Python `None`, a float `NaN`, an `int`, or a string.
A finite float cell is modelled by its shortest `repr` as a string cell
(justified by CPython's round-trip guarantee `float(repr(x)) == x`); `NaN`
keeps its own constructor because `is_blank` tests it with `pd.isna`. -/

inductive CellValue where
  | vNone
  | vNan
  | vInt (n : ℤ)
  | vStr (s : String)
deriving DecidableEq, Repr

/-- Python `str(x)` for the cell values above. -/
def pyStr : CellValue → String
  | .vNone => "None"
  | .vNan => "nan"
  | .vInt n => ⟨Int.repr n |>.data⟩
  | .vStr s => s

/-- `is_blank` (src/main.py:479-485). -/
def is_blank (x : CellValue) : Bool :=
  match x with
  | .vNone => true
  | .vNan => true
  | _ =>
    let s := pyStrip (pyStr x)
    s = "" || pyLower s = "nan"

/-- `clean_filename` (src/main.py:498-504). -/
def clean_filename (x : CellValue) : String :=
  if is_blank x then "UNKNOWN"
  else
    let s1 := pyStripList (pyStr x).data
    let s2 := collapseWs s1
    let s3 := removeIllegal s2
    if s3 = [] then "UNKNOWN" else ⟨s3⟩

/-- `safe_year_value` (src/main.py:507-512).  `re.sub(r"[^\d]", "", s)` keeps
only the digits. -/
def safe_year_value (x : CellValue) : String :=
  if is_blank x then "YEAR"
  else
    let s := pyStripList (pyStr x).data
    let digits := s.filter Char.isDigit
    if digits ≠ [] then ⟨digits⟩ else if s ≠ [] then ⟨s⟩ else "YEAR"

/-! ## Exact rational arithmetic that evaluates in the kernel

Core `Rat`'s normalizing arithmetic does not reduce definitionally, so the
binary64 model carries a plain (possibly unnormalized) fraction: an integer
numerator over a positive natural denominator.  Every operation is `Int`/`Nat`
arithmetic, which the kernel evaluates. -/

structure Frac where
  num : ℤ
  den : ℕ
deriving DecidableEq, Repr

namespace Frac

def ofInt (n : ℤ) : Frac := ⟨n, 1⟩

def ofNat (n : ℕ) : Frac := ⟨(n : ℤ), 1⟩

def mul (a b : Frac) : Frac := ⟨a.num * b.num, a.den * b.den⟩

def neg (a : Frac) : Frac := ⟨-a.num, a.den⟩

def sub (a b : Frac) : Frac := ⟨a.num * (b.den : ℤ) - b.num * (a.den : ℤ), a.den * b.den⟩

/-- `a / b` (callers guard `b ≠ 0`); the denominator's sign moves to the
numerator. -/
def div (a b : Frac) : Frac :=
  if b.num < 0 then ⟨-(a.num * (b.den : ℤ)), a.den * b.num.natAbs⟩
  else ⟨a.num * (b.den : ℤ), a.den * b.num.natAbs⟩

def isZero (a : Frac) : Bool := a.num = 0

def isNeg (a : Frac) : Bool := a.num < 0

/-- `a ≤ b` by cross-multiplication (positive denominators). -/
def ble (a b : Frac) : Bool := a.num * (b.den : ℤ) ≤ b.num * (a.den : ℤ)

def blt (a b : Frac) : Bool := a.num * (b.den : ℤ) < b.num * (a.den : ℤ)

/-- `⌊a⌋` (denominator positive), via flooring integer division. -/
def floor (a : Frac) : ℤ := Int.fdiv a.num (a.den : ℤ)

/-- The rational value a `Frac` denotes (specification only; not used in
computations). -/
def val (a : Frac) : ℚ := (a.num : ℚ) / (a.den : ℚ)

end Frac

/-! ## Binary64 (CPython `float`) model

A double is `nan`, `±inf`, `-0.0`, or a finite value carried as the exact
fraction it denotes (`finite` with numerator `0` is `+0.0`).  Rounding is
round-to-nearest, ties-to-even, with gradual underflow and overflow to
infinity. -/

inductive F64 where
  | nan
  | inf
  | neginf
  | negzero
  | finite (q : Frac)
deriving DecidableEq, Repr

/-- Number of binary digits of `n` (`0 → 0`, `1 → 1`, `4 → 3`), via explicit
fuel so the kernel can evaluate it. -/
def bitLenAux : ℕ → ℕ → ℕ
  | 0, _ => 0
  | _ + 1, 0 => 0
  | fuel + 1, m + 1 => bitLenAux fuel ((m + 1) / 2) + 1

def bitLen (n : ℕ) : ℕ := bitLenAux n n

/-- `a * 2^k` for an integer exponent. -/
def mulPow2 (a : Frac) (k : ℤ) : Frac :=
  if 0 ≤ k then ⟨a.num * ((2 ^ k.toNat : ℕ) : ℤ), a.den⟩ else ⟨a.num, a.den * 2 ^ (-k).toNat⟩

/-- For `0 < a`, the exponent `e` with `2^e ≤ a < 2^(e+1)` (correct for any
fraction representation: the bit-length bound brackets the value within a
factor of two, and the comparison picks the right side). -/
def expOf (a : Frac) : ℤ :=
  let e0 : ℤ := (bitLen a.num.natAbs : ℤ) - (bitLen a.den : ℤ)
  if (mulPow2 (Frac.ofInt 1) e0).ble a then e0 else e0 - 1

/-- Round to the nearest integer, ties to the even one. -/
def roundHalfEven (q : Frac) : ℤ :=
  let n := q.floor
  let r := q.sub (Frac.ofInt n)
  if r.blt ⟨1, 2⟩ then n
  else if Frac.blt ⟨1, 2⟩ r then n + 1
  else if n % 2 = 0 then n else n + 1

/-- Round a positive fraction to binary64: `none` means overflow to `+∞`,
`some r` the exact value of the resulting double (`0` on underflow). -/
def roundPosToF64 (a : Frac) : Option Frac :=
  let e := max (expOf a) (-1022)
  let n := (roundHalfEven (mulPow2 a (52 - e))).toNat
  let r := mulPow2 (Frac.ofNat n) (e - 52)
  if (Frac.ofInt ((2 ^ 1024 : ℕ) : ℤ)).ble r then none else some r

/-- Round any fraction to binary64 (a negative value underflowing to zero
gives `-0.0`, as IEEE 754 requires). -/
def roundToF64 (q : Frac) : F64 :=
  if q.isZero then .finite ⟨0, 1⟩
  else if q.isNeg then
    match roundPosToF64 q.neg with
    | none => .neginf
    | some r => if r.isZero then .negzero else .finite r.neg
  else
    match roundPosToF64 q with
    | none => .inf
    | some r => .finite r

/-! ## CPython `float(str)` parser

`float()` accepts `[sign] (inf|infinity|nan | numeral)` case-insensitively,
where a numeral is digits with single underscores between digits, an optional
fraction, and an optional decimal exponent.  (The embedding covers ASCII
digits; CPython additionally maps other Unicode decimal digits.)  The input
here is always pre-stripped by the caller. -/

/-- Parse a run of digits possibly containing single underscores between
digits: returns (value, digit count, rest); `none` on a misplaced
underscore.  Fails (returns `none`) if the first character is not a digit. -/
def parseUDigits : List Char → Option (ℕ × ℕ × List Char)
  | c :: cs => if c.isDigit then go (c.toNat - 48) 1 cs else none
  | [] => none
where
  go (acc cnt : ℕ) : List Char → Option (ℕ × ℕ × List Char)
    | [] => some (acc, cnt, [])
    | c :: cs =>
      if c.isDigit then go (acc * 10 + (c.toNat - 48)) (cnt + 1) cs
      else if c = '_' then
        match cs with
        | d :: ds => if d.isDigit then go (acc * 10 + (d.toNat - 48)) (cnt + 1) ds else none
        | [] => none
      else some (acc, cnt, c :: cs)

/-- `a * 10^k` for an integer exponent. -/
def mulPow10 (a : Frac) (k : ℤ) : Frac :=
  if 0 ≤ k then ⟨a.num * ((10 ^ k.toNat : ℕ) : ℤ), a.den⟩ else ⟨a.num, a.den * 10 ^ (-k).toNat⟩

/-- Parse an unsigned float numeral (`digits[.digits][e[sign]digits]`) into
its exact rational value; `none` if the string is not fully consumed or is
not a valid numeral. -/
def parseNumeral (l : List Char) : Option Frac :=
  let (ip, ic, r1) := (parseUDigits l).getD (0, 0, l)
  let (fp, fc, r2) :=
    match r1 with
    | '.' :: t => (parseUDigits t).getD (0, 0, t)
    | _ => (0, 0, r1)
  -- at least one mantissa digit is required
  if ic + fc = 0 then none
  else
    let mant : Frac := ⟨(ip : ℤ) * ((10 ^ fc : ℕ) : ℤ) + (fp : ℤ), 10 ^ fc⟩
    match r2 with
    | [] => some mant
    | e :: t =>
      if e = 'e' ∨ e = 'E' then
        let (esign, t2) : ℤ × List Char :=
          match t with
          | '+' :: u => (1, u)
          | '-' :: u => (-1, u)
          | _ => (1, t)
        match parseUDigits t2 with
        | some (ev, _, []) => some (mulPow10 mant (esign * ev))
        | _ => none
      else none

/-- CPython `float(s)` for a pre-stripped string `s`: `none` models
`ValueError`. -/
def pyFloat (s : String) : Option F64 :=
  let (neg, rest) : Bool × List Char :=
    match s.data with
    | '+' :: t => (false, t)
    | '-' :: t => (true, t)
    | t => (false, t)
  let low := rest.map Char.toLower
  if low = "inf".data ∨ low = "infinity".data then
    some (if neg then .neginf else .inf)
  else if low = "nan".data then some .nan
  else
    match parseNumeral rest with
    | none => none
    | some m =>
      if m.isZero then some (if neg then .negzero else .finite ⟨0, 1⟩)
      else some (roundToF64 (if neg then m.neg else m))

/-! ## CPython `f"{val:,.2f}"` formatter

Formats the double's exact value rounded to two decimals (ties of the exact
stored value go to even), with a comma every three integer digits and the
sign taken from the sign bit (so `-0.0` and negatives rounding to zero print
`-0.00`). -/

/-- Insert `,` every three characters of a reversed digit list. -/
def group3Rev : List Char → List Char
  | a :: b :: c :: d :: rest => a :: b :: c :: ',' :: group3Rev (d :: rest)
  | l => l

/-- Decimal digits of `n` grouped in threes by commas: `1234567 ↦ "1,234,567"`. -/
def natGrouped (n : ℕ) : String := ⟨(group3Rev (Nat.repr n).data.reverse).reverse⟩

/-- A value below 100 as exactly two decimal digits. -/
def twoDigitsStr (m : ℕ) : String := (if m < 10 then "0" else "") ++ Nat.repr m

/-- Two-decimal rendering of a nonnegative fraction (used on `|q|`). -/
def fmtMag2 (q : Frac) : String :=
  let n := (roundHalfEven (Frac.mul ⟨100, 1⟩ q)).toNat
  natGrouped (n / 100) ++ "." ++ twoDigitsStr (n % 100)

def pyFormatComma2 : F64 → String
  | .nan => "nan"
  | .inf => "inf"
  | .neginf => "-inf"
  | .negzero => "-0.00"
  | .finite q => if q.isNeg then "-" ++ fmtMag2 q.neg else fmtMag2 q

/-- `normalize_amount` (src/main.py:488-495):
`float(str(x).replace(",", "").strip())` rendered as `f"{val:,.2f}"`, with
`"0.00"` for blanks and for `ValueError`. -/
def normalize_amount (x : CellValue) : String :=
  if is_blank x then "0.00"
  else
    let s := pyStrip ⟨(pyStr x).data.filter (fun c => c ≠ ',')⟩
    match pyFloat s with
    | none => "0.00"
    | some f => pyFormatComma2 f

/-! ## The progress percent (`src/main.py:683`)

`int((done / total) * 100) if total else 0` — two correctly rounded binary64
operations (CPython `int / int` true division is correctly rounded) followed
by truncation toward zero.  `int()` of a non-finite double raises, modelled
by `none`. -/

def f64DivNat (d t : ℕ) : F64 := roundToF64 ((Frac.ofNat d).div (Frac.ofNat t))

def f64Mul100 : F64 → F64
  | .nan => .nan
  | .inf => .inf
  | .neginf => .neginf
  | .negzero => .negzero
  | .finite q => roundToF64 (q.mul ⟨100, 1⟩)

def f64TruncInt : F64 → Option ℤ
  | .negzero => some 0
  | .finite q => some (if q.isNeg then -(q.neg.floor) else q.floor)
  | _ => none

def pyPercent (done total : ℕ) : Option ℤ :=
  if total = 0 then some 0 else f64TruncInt (f64Mul100 (f64DivNat done total))

/-! ## Configuration constants (src/main.py:22-52) -/

def TEMPLATE_NAME : String := "1099 NEC FORM.pdf"

def CONTRACTOR_FOLDER : String := "Contractor\x27s Copy"

def COPIES : List String := ["CopyA[0]", "Copy1[0]", "CopyB[0]", "Copy2[0]"]

def MAP_1099 : List (String × String) := [
  ("FOR CALENDAR\nYEAR", "topmostSubform[0].CopyA[0].PgHeader[0].CalendarYear[0].f1_1[0]"),
  ("PAYER’S name, street address, city or town, state or province, country, ZIP\nor foreign postal code, and telephone no.",
    "topmostSubform[0].CopyA[0].LeftCol[0].f1_2[0]"),
  ("PAYER’S TIN", "topmostSubform[0].CopyA[0].LeftCol[0].f1_3[0]"),
  ("RECIPIENT’S TIN", "topmostSubform[0].CopyA[0].LeftCol[0].f1_4[0]"),
  ("RECIPIENT’S name", "topmostSubform[0].CopyA[0].LeftCol[0].f1_5[0]"),
  ("Street address (including apt. no.)", "topmostSubform[0].CopyA[0].LeftCol[0].f1_6[0]"),
  ("City or town, state or province, country,\nand ZIP or foreign postal code",
    "topmostSubform[0].CopyA[0].LeftCol[0].f1_7[0]"),
  ("1 Nonemployee\ncompensation", "topmostSubform[0].CopyA[0].RightCol[0].f1_9[0]"),
  ("6 State/ \nPayer\x27s State No.", "topmostSubform[0].CopyA[0].RightCol[0].Box6_ReadOrder[0].f1_14[0]"),
  ("7 State\nincome", "topmostSubform[0].CopyA[0].RightCol[0].Box7_ReadOrder[0].f1_16[0]")]

def AMOUNT_HEADERS : List String := ["1 Nonemployee\ncompensation", "7 State\nincome"]

def COL_RECIPIENT : String := "RECIPIENT’S name"

def COL_YEAR : String := "FOR CALENDAR\nYEAR"

/-! ## Python `str.replace` -/

/-- Does `pat` lead the list `l`? -/
def leadsWith : List Char → List Char → Bool
  | [], _ => true
  | _ :: _, [] => false
  | a :: as, b :: bs => a = b && leadsWith as bs

/-- Replace every (leftmost, non-overlapping) occurrence of the nonempty
pattern `pat` by `rep`, exactly as Python `str.replace`.  The fuel argument
(started at the list's length, an upper bound on the number of steps) makes
the recursion structural so the kernel can evaluate it. -/
def replaceAllAux (pat rep : List Char) : ℕ → List Char → List Char
  | _, [] => []
  | 0, l => l
  | fuel + 1, c :: cs =>
    if leadsWith pat (c :: cs) then rep ++ replaceAllAux pat rep fuel (cs.drop (pat.length - 1))
    else c :: replaceAllAux pat rep fuel cs

/-- Python `s.replace(pat, rep)` (the program never calls it with an empty
pattern). -/
def pyReplace (s pat rep : String) : String :=
  match pat.data with
  | [] => s
  | p :: ps => ⟨replaceAllAux (p :: ps) rep.data s.data.length s.data⟩

/-- `sibling_field` (src/main.py:515-519). -/
def sibling_field (copya_field target : String) : String :=
  let out := pyReplace copya_field "CopyA[0]" target
  if target ≠ "CopyA[0]" then pyReplace out ".f1_" ".f2_" else out

/-! ## The PDF document model

A document is its page list (pages held abstractly as identifiers), the
presence of an `/AcroForm` dictionary, the `/NeedAppearances` flag, and the
interactive-form fields as an association list `field path ↦ /V value`.
`clone_document_from_reader` is the identity on this abstraction. -/

structure PdfDoc where
  pages : List ℕ
  hasAcroForm : Bool
  needAppearances : Bool
  fields : List (String × String)
deriving DecidableEq, Repr

def lookupField (name : String) : List (String × String) → Option String
  | [] => none
  | kv :: rest => if kv.1 = name then some kv.2 else lookupField name rest

/-- `set_field_value` (src/main.py:522-527): a silent no-op when `name` is not
among the document's fields, otherwise it updates that field's `/V`. -/
def setFieldValue (fields : List (String × String)) (name value : String) :
    List (String × String) :=
  if (lookupField name fields).isSome then
    fields.map (fun kv => if kv.1 = name then (kv.1, value) else kv)
  else fields

/-! ## Rows and the form-filling engine -/

/-- One spreadsheet row: column name ↦ cell.  `row.get(c)` of a missing
column is Python `None`. -/
abbrev Row := List (String × CellValue)

def rowGet (r : Row) (c : String) : CellValue :=
  match lookupCell r with
  | some v => v
  | none => .vNone
where
  lookupCell : List (String × CellValue) → Option CellValue
    | [] => none
    | kv :: rest => if kv.1 = c then some kv.2 else lookupCell rest

/-- `row_all_blank` (src/main.py:530-531). -/
def row_all_blank (r : Row) (cols : List String) : Bool :=
  cols.all (fun c => is_blank (rowGet r c))

/-- The value the filling loop computes for one mapped column
(src/main.py:544-550). -/
def entryValue (row : Row) (col : String) : String :=
  let raw := rowGet row col
  if AMOUNT_HEADERS.contains col then normalize_amount raw
  else if is_blank raw then "" else pyStrip (pyStr raw)

/-- The ordered list of field writes attempted for one row: for every mapping
entry, for every copy variant, the sibling path with the (copy-independent)
normalized value (src/main.py:544-554). -/
def writesFor (row : Row) : List (String × String) :=
  MAP_1099.flatMap (fun cf => COPIES.map (fun cp => (sibling_field cf.2 cp, entryValue row cf.1)))

def applyWrites (fields : List (String × String)) (ws : List (String × String)) :
    List (String × String) :=
  ws.foldl (fun fs nv => setFieldValue fs nv.1 nv.2) fields

/-- `write_full_pdf_bytes` (src/main.py:534-558): clone the template, force
`/NeedAppearances` when an `/AcroForm` is present, then attempt every write of
`writesFor` (with no `/AcroForm`, `writer.get_fields() or {}` is empty and
every write is a no-op). -/
def write_full_pdf_bytes (template : PdfDoc) (row : Row) : PdfDoc :=
  let d := if template.hasAcroForm then { template with needAppearances := true } else template
  if d.hasAcroForm then { d with fields := applyWrites d.fields (writesFor row) } else d

/-- `contractor_copy_bytes` (src/main.py:561-576): clone the full document,
force `/NeedAppearances`, then `remove_page(1)` followed by `remove_page(0)`
when at least two pages exist. -/
def contractor_copy_bytes (doc : PdfDoc) : PdfDoc :=
  let d := if doc.hasAcroForm then { doc with needAppearances := true } else doc
  if 2 ≤ d.pages.length then { d with pages := (d.pages.eraseIdx 1).eraseIdx 0 } else d

/-! ## Job state (src/main.py:61-69)

`created_at` (wall-clock time, used only by the TTL sweep) is outside the
embedding.  The archive is carried as its list of entries
`entry name ↦ document`. -/

structure JobState where
  total_recipients : ℕ
  done_recipients : ℕ
  status : String
  finished : Bool
  error : Option String
  zip_bytes : Option (List (String × PdfDoc))
deriving DecidableEq, Repr

def jobInit : JobState :=
  { total_recipients := 0, done_recipients := 0, status := "Queued",
    finished := false, error := none, zip_bytes := none }

/-- The `except` block of `run_job` (src/main.py:641-647): record the message,
set the error label, set the terminal flag; counts and archive untouched. -/
def failState (s : JobState) (msg : String) : JobState :=
  { s with error := some msg, status := "Error", finished := true }

/-! ## The worker (src/main.py:582-647)

The worker is embedded as a function from its environment to the list of job
states after each `JOBS_LOCK`-protected mutation block, starting from the
state `/start` created.  The environment carries what the outside world can
make the code observe: whether the template file exists, the outcome of
`pd.read_excel` (an exception or a column/row table), and an oracle giving,
per 1-based row position, the exception (if any) raised while producing or
archiving that row's PDFs.  The trace being a total function is the
embedding of "no exception propagates out of the thread". -/

structure Frame where
  cols : List String
  rows : List Row

structure WorkerEnv where
  cwd : String
  templateExists : Bool
  template : PdfDoc
  parsed : Except String Frame
  fillErr : ℕ → Option String

/-- The two archive entries appended for one row (src/main.py:616-629). -/
def zipEntriesFor (template : PdfDoc) (r : Row) : List (String × PdfDoc) :=
  let recipient := clean_filename (rowGet r COL_RECIPIENT)
  let year := safe_year_value (rowGet r COL_YEAR)
  let full := write_full_pdf_bytes template r
  let contractor := contractor_copy_bytes full
  [("1099 NEC - " ++ recipient ++ " - " ++ year ++ ".pdf", full),
   (CONTRACTOR_FOLDER ++ "/" ++ "1099 NEC - " ++ recipient ++ " - " ++ CONTRACTOR_FOLDER ++
      " - " ++ year ++ ".pdf", contractor)]

def fillingStatus (recipient : String) (idx total : ℕ) : String :=
  "Filling: " ++ recipient ++ " (" ++ Nat.repr idx ++ "/" ++ Nat.repr total ++ ")"

/-- The per-row loop (src/main.py:615-632) plus the success block
(src/main.py:634-639): emits the state after each lock-protected mutation.
`fe idx = some e` means row `idx` (1-based) raised `e` while filling,
deriving, or archiving. -/
def rowsTrace (fe : ℕ → Option String) (template : PdfDoc) (total : ℕ) :
    ℕ → List Row → JobState → List (String × PdfDoc) → List JobState
  | _, [], s, acc => [{ s with zip_bytes := some acc, status := "Completed", finished := true }]
  | idx, r :: rs, s, acc =>
    let sSt := { s with status := fillingStatus (clean_filename (rowGet r COL_RECIPIENT)) idx total }
    match fe idx with
    | some e => sSt :: [failState sSt e]
    | none =>
      let sDone := { sSt with done_recipients := idx }
      sSt :: sDone :: rowsTrace fe template total (idx + 1) rs sDone (acc ++ zipEntriesFor template r)

/-- Python `repr` of a string as it appears in an f-string interpolation of a
list (covers the escapes occurring in the required column names). -/
def pyReprStr (s : String) : String :=
  "\x27" ++
    ⟨s.data.foldr (fun c acc =>
      (if c = '\\' then ['\\', '\\']
       else if c = '\n' then ['\\', 'n']
       else if c = '\x0d' then ['\\', 'r']
       else if c = '\t' then ['\\', 't']
       else if c = '\x27' then ['\\', '\x27']
       else [c]) ++ acc) []⟩ ++ "\x27"

def missingColsMsg (missing : List String) : String :=
  "Excel missing required columns: [" ++ String.intercalate ", " (missing.map pyReprStr) ++
    "]. Make sure headers match exactly."

/-- The full worker trace: state snapshots from job creation (in `/start`) to
the terminal state, in program order (src/main.py:582-647). -/
def runJobStates (env : WorkerEnv) : List JobState :=
  if !env.templateExists then
    [jobInit, failState jobInit ("Missing template on server: " ++ env.cwd ++ "/" ++ TEMPLATE_NAME)]
  else
    match env.parsed with
    | .error e => [jobInit, failState jobInit e]
    | .ok df =>
      let missing := [COL_RECIPIENT, COL_YEAR].filter (fun c => !df.cols.contains c)
      if missing ≠ [] then [jobInit, failState jobInit (missingColsMsg missing)]
      else
        let rows := df.rows.filter (fun r => !row_all_blank r df.cols)
        if rows = [] then [jobInit, failState jobInit "No usable recipient rows found in Excel."]
        else
          let s1 := { jobInit with
            total_recipients := rows.length
            done_recipients := 0
            status := "Generating…" }
          jobInit :: s1 :: rowsTrace env.fillErr env.template rows.length 1 rows s1 []

/-! ## Polling and download endpoints (src/main.py:673-714) -/

/-- `percent` as `/progress` computes it (src/main.py:681-683):
`int((done / total) * 100) if total else 0`. -/
def progressPercent (st : JobState) : Option ℤ :=
  pyPercent st.done_recipients st.total_recipients

inductive ApiErr where
  | notFound
  | conflict
  | badRequest (msg : String)
  | internal
deriving DecidableEq, Repr

/-- `download` (src/main.py:696-714).  Python truthiness is modelled exactly:
`if st.error:` is false for both `None` and the empty string, and
`if not st.zip_bytes:` is true for both `None` and an empty byte string. -/
def download (st? : Option JobState) : Except ApiErr (List (String × PdfDoc)) :=
  match st? with
  | none => .error .notFound
  | some st =>
    if !st.finished then .error .conflict
    else if st.error.getD "" ≠ "" then .error (.badRequest ("Job failed: " ++ st.error.getD ""))
    else if (st.zip_bytes.getD []).isEmpty then .error .internal
    else .ok (st.zip_bytes.getD [])

/-! ## Shared concrete fixtures (used by witnesses and counterexamples) -/

/-- A six-page template with an `/AcroForm`: the 1099-NEC template has the
two `CopyA` pages first and the contractor copies after them. -/
def exTemplate : PdfDoc :=
  { pages := [10, 20, 30, 40, 50, 60], hasAcroForm := true, needAppearances := false,
    fields := [("topmostSubform[0].CopyA[0].LeftCol[0].f1_5[0]", ""),
               ("topmostSubform[0].Copy1[0].LeftCol[0].f2_5[0]", "")] }

def exRow : Row := [(COL_RECIPIENT, .vStr "Alice"), (COL_YEAR, .vStr "2023")]

def exRowBlank : Row := [(COL_RECIPIENT, .vStr " "), (COL_YEAR, .vNone)]

def exRow2 : Row := [(COL_RECIPIENT, .vStr "Bob"), (COL_YEAR, .vStr "2024")]

def exFrame : Frame := { cols := [COL_RECIPIENT, COL_YEAR], rows := [exRow, exRowBlank, exRow2] }

def envOkEx : WorkerEnv :=
  { cwd := "/app", templateExists := true, template := exTemplate,
    parsed := .ok exFrame, fillErr := fun _ => none }

def envNoTmplEx : WorkerEnv := { envOkEx with templateExists := false }

def envParseErrEx : WorkerEnv := { envOkEx with parsed := .error "boom" }

/-- An environment whose only row fails with an exception whose `str` is the
empty string (e.g. `RuntimeError()`), as the download endpoint's truthiness
test can observe. -/
def envEmptyMsgEx : WorkerEnv :=
  { cwd := "/app", templateExists := true, template := exTemplate,
    parsed := .ok { cols := [COL_RECIPIENT, COL_YEAR], rows := [exRow] },
    fillErr := fun _ => some "" }

/-! ## Structural facts about the filling engine and the copy deriver -/

theorem write_full_pages (t : PdfDoc) (row : Row) :
    (write_full_pdf_bytes t row).pages = t.pages := by
  cases h : t.hasAcroForm <;> simp [write_full_pdf_bytes, h]

theorem write_full_hasAcroForm (t : PdfDoc) (row : Row) :
    (write_full_pdf_bytes t row).hasAcroForm = t.hasAcroForm := by
  cases h : t.hasAcroForm <;> simp [write_full_pdf_bytes, h]

theorem contractor_fields (d : PdfDoc) :
    (contractor_copy_bytes d).fields = d.fields := by
  cases h : d.hasAcroForm <;> simp [contractor_copy_bytes, h] <;> split <;> rfl

theorem contractor_needAppearances (d : PdfDoc) :
    (contractor_copy_bytes d).needAppearances =
      (if d.hasAcroForm then true else d.needAppearances) := by
  cases h : d.hasAcroForm <;> simp [contractor_copy_bytes, h] <;> split <;> rfl

theorem contractor_pages_of_two_le (d : PdfDoc) (hp : 2 ≤ d.pages.length) :
    (contractor_copy_bytes d).pages = d.pages.drop 2 := by
  rcases d with ⟨pages, acro, na, fields⟩
  match pages, hp with
  | a :: b :: rest, _ =>
    cases acro <;> simp [contractor_copy_bytes, List.eraseIdx]

/-- C1: for a fully filled document (the filling engine applied to a template
with at least the two primary pages), the contractor derivation keeps exactly
all pages except the first two, preserves every interactive-form field value,
and preserves the `/NeedAppearances` flag. -/
theorem contractor_copy_preserves (template : PdfDoc) (row : Row)
    (hp : 2 ≤ template.pages.length) :
    (contractor_copy_bytes (write_full_pdf_bytes template row)).pages.length
        = (write_full_pdf_bytes template row).pages.length - 2
  ∧ (∀ n v, lookupField n (write_full_pdf_bytes template row).fields = some v →
      lookupField n (contractor_copy_bytes (write_full_pdf_bytes template row)).fields = some v)
  ∧ (contractor_copy_bytes (write_full_pdf_bytes template row)).needAppearances
        = (write_full_pdf_bytes template row).needAppearances := by
  have hpg : (write_full_pdf_bytes template row).pages = template.pages :=
    write_full_pages template row
  have hp' : 2 ≤ (write_full_pdf_bytes template row).pages.length := by rw [hpg]; exact hp
  refine ⟨?_, ?_, ?_⟩
  · rw [contractor_pages_of_two_le _ hp', List.length_drop]
  · intro n v h
    rw [contractor_fields]
    exact h
  · rw [contractor_needAppearances]
    have hac : (write_full_pdf_bytes template row).hasAcroForm = template.hasAcroForm :=
      write_full_hasAcroForm template row
    cases h : template.hasAcroForm <;> simp [write_full_pdf_bytes, h, hac]

theorem contractor_copy_preserves_witness :
    2 ≤ exTemplate.pages.length
  ∧ ((contractor_copy_bytes (write_full_pdf_bytes exTemplate exRow)).pages.length
        = (write_full_pdf_bytes exTemplate exRow).pages.length - 2
    ∧ (∀ n v, lookupField n (write_full_pdf_bytes exTemplate exRow).fields = some v →
        lookupField n (contractor_copy_bytes (write_full_pdf_bytes exTemplate exRow)).fields
          = some v)
    ∧ (contractor_copy_bytes (write_full_pdf_bytes exTemplate exRow)).needAppearances
        = (write_full_pdf_bytes exTemplate exRow).needAppearances) :=
  ⟨by decide, contractor_copy_preserves exTemplate exRow (by decide)⟩

/-! ## C5: the cross-copy path rule -/

theorem map_fst_writesFor (row : Row) :
    (writesFor row).map Prod.fst =
      MAP_1099.flatMap (fun cf => COPIES.map (fun cp => sibling_field cf.2 cp)) := by
  rw [writesFor, List.map_flatMap]
  simp only [List.map_map]
  rfl

/-- C5: every mapping entry is written, with one copy-independent value, at
the sibling path of each of the four copies, and the 40 attempted write
targets are exactly the paths obtained from the ten `CopyA[0]`-rooted paths
by substituting the copy segment and, on non-primary copies, the `.f1_`
prefix token by `.f2_`. -/
theorem sibling_writes (row : Row) (cf : String × String) (hcf : cf ∈ MAP_1099)
    (cp : String) (hcp : cp ∈ COPIES) :
    (sibling_field cf.2 cp, entryValue row cf.1) ∈ writesFor row
  ∧ (writesFor row).map Prod.fst = [
      "topmostSubform[0].CopyA[0].PgHeader[0].CalendarYear[0].f1_1[0]",
      "topmostSubform[0].Copy1[0].PgHeader[0].CalendarYear[0].f2_1[0]",
      "topmostSubform[0].CopyB[0].PgHeader[0].CalendarYear[0].f2_1[0]",
      "topmostSubform[0].Copy2[0].PgHeader[0].CalendarYear[0].f2_1[0]",
      "topmostSubform[0].CopyA[0].LeftCol[0].f1_2[0]",
      "topmostSubform[0].Copy1[0].LeftCol[0].f2_2[0]",
      "topmostSubform[0].CopyB[0].LeftCol[0].f2_2[0]",
      "topmostSubform[0].Copy2[0].LeftCol[0].f2_2[0]",
      "topmostSubform[0].CopyA[0].LeftCol[0].f1_3[0]",
      "topmostSubform[0].Copy1[0].LeftCol[0].f2_3[0]",
      "topmostSubform[0].CopyB[0].LeftCol[0].f2_3[0]",
      "topmostSubform[0].Copy2[0].LeftCol[0].f2_3[0]",
      "topmostSubform[0].CopyA[0].LeftCol[0].f1_4[0]",
      "topmostSubform[0].Copy1[0].LeftCol[0].f2_4[0]",
      "topmostSubform[0].CopyB[0].LeftCol[0].f2_4[0]",
      "topmostSubform[0].Copy2[0].LeftCol[0].f2_4[0]",
      "topmostSubform[0].CopyA[0].LeftCol[0].f1_5[0]",
      "topmostSubform[0].Copy1[0].LeftCol[0].f2_5[0]",
      "topmostSubform[0].CopyB[0].LeftCol[0].f2_5[0]",
      "topmostSubform[0].Copy2[0].LeftCol[0].f2_5[0]",
      "topmostSubform[0].CopyA[0].LeftCol[0].f1_6[0]",
      "topmostSubform[0].Copy1[0].LeftCol[0].f2_6[0]",
      "topmostSubform[0].CopyB[0].LeftCol[0].f2_6[0]",
      "topmostSubform[0].Copy2[0].LeftCol[0].f2_6[0]",
      "topmostSubform[0].CopyA[0].LeftCol[0].f1_7[0]",
      "topmostSubform[0].Copy1[0].LeftCol[0].f2_7[0]",
      "topmostSubform[0].CopyB[0].LeftCol[0].f2_7[0]",
      "topmostSubform[0].Copy2[0].LeftCol[0].f2_7[0]",
      "topmostSubform[0].CopyA[0].RightCol[0].f1_9[0]",
      "topmostSubform[0].Copy1[0].RightCol[0].f2_9[0]",
      "topmostSubform[0].CopyB[0].RightCol[0].f2_9[0]",
      "topmostSubform[0].Copy2[0].RightCol[0].f2_9[0]",
      "topmostSubform[0].CopyA[0].RightCol[0].Box6_ReadOrder[0].f1_14[0]",
      "topmostSubform[0].Copy1[0].RightCol[0].Box6_ReadOrder[0].f2_14[0]",
      "topmostSubform[0].CopyB[0].RightCol[0].Box6_ReadOrder[0].f2_14[0]",
      "topmostSubform[0].Copy2[0].RightCol[0].Box6_ReadOrder[0].f2_14[0]",
      "topmostSubform[0].CopyA[0].RightCol[0].Box7_ReadOrder[0].f1_16[0]",
      "topmostSubform[0].Copy1[0].RightCol[0].Box7_ReadOrder[0].f2_16[0]",
      "topmostSubform[0].CopyB[0].RightCol[0].Box7_ReadOrder[0].f2_16[0]",
      "topmostSubform[0].Copy2[0].RightCol[0].Box7_ReadOrder[0].f2_16[0]"] := by
  constructor
  · exact List.mem_flatMap_of_mem hcf (List.mem_map_of_mem _ hcp)
  · rw [map_fst_writesFor]
    decide

theorem sibling_writes_witness :
    (("FOR CALENDAR\nYEAR",
        "topmostSubform[0].CopyA[0].PgHeader[0].CalendarYear[0].f1_1[0]") ∈ MAP_1099)
  ∧ ("Copy1[0]" ∈ COPIES)
  ∧ ((sibling_field "topmostSubform[0].CopyA[0].PgHeader[0].CalendarYear[0].f1_1[0]" "Copy1[0]",
        entryValue exRow "FOR CALENDAR\nYEAR") ∈ writesFor exRow) :=
  ⟨by decide, by decide,
    (sibling_writes exRow
      ("FOR CALENDAR\nYEAR", "topmostSubform[0].CopyA[0].PgHeader[0].CalendarYear[0].f1_1[0]")
      (by decide) "Copy1[0]" (by decide)).1⟩

/-! ## C7: filename sanitization -/

/-- The sanitizer as the specification describes it — with a final re-trim
after stripping the illegal characters.  Named `_spec_claimed` because it
follows the spec's words, to be compared against `clean_filename`, which
follows the source. -/
def clean_filename_spec_claimed (x : CellValue) : String :=
  if is_blank x then "UNKNOWN"
  else
    let t := pyStripList (removeIllegal (collapseWs (pyStripList (pyStr x).data)))
    if t = [] then "UNKNOWN" else ⟨t⟩

/-- C7 counterexample: on `"/ /"` the claimed pipeline (trim, collapse, strip
illegal characters, re-trim, empty ⇒ "UNKNOWN") yields `"UNKNOWN"`, but
`clean_filename` performs no re-trim and returns the single space `" "`. -/
theorem clean_filename_retrim_cex :
    clean_filename_spec_claimed (.vStr "/ /") = "UNKNOWN"
  ∧ clean_filename (.vStr "/ /") = " "
  ∧ clean_filename (.vStr "/ /") ≠ "UNKNOWN" := by decide

/-- C7 amended: blank input gives "UNKNOWN"; otherwise the result is the
input trimmed, whitespace runs collapsed, and illegal characters stripped,
with NO final re-trim (whitespace bared at the ends by the character strip is
kept); the result is "UNKNOWN" only when that string is empty, and the
returned string never contains a filename-illegal character and is never
empty. -/
theorem clean_filename_amended (x : CellValue) :
    (is_blank x = true → clean_filename x = "UNKNOWN")
  ∧ (is_blank x = false →
      clean_filename x =
        (if removeIllegal (collapseWs (pyStripList (pyStr x).data)) = [] then "UNKNOWN"
         else ⟨removeIllegal (collapseWs (pyStripList (pyStr x).data))⟩))
  ∧ (∀ c ∈ (clean_filename x).data, illegalFilenameChars.contains c = false)
  ∧ clean_filename x ≠ "" := by
  by_cases h : is_blank x = true
  · refine ⟨?_, ?_, ?_, ?_⟩
    · exact fun _ => by simp [clean_filename, h]
    · intro h'
      rw [h] at h'
      cases h'
    · simp only [clean_filename, h, if_true]
      decide
    · simp only [clean_filename, h, if_true]
      decide
  · have h' : is_blank x = false := by simpa using h
    refine ⟨?_, ?_, ?_, ?_⟩
    · intro hc
      rw [h'] at hc
      cases hc
    · exact fun _ => by simp [clean_filename, h']
    · intro c hc
      by_cases hz : removeIllegal (collapseWs (pyStripList (pyStr x).data)) = []
      · simp only [clean_filename, h', if_false, Bool.false_eq_true, hz, if_true] at hc
        revert hc
        revert c
        decide
      · simp only [clean_filename, h', if_false, Bool.false_eq_true, hz, if_true] at hc
        have hc' : c ∈ (collapseWs (pyStripList (pyStr x).data)).filter
            (fun c => !(illegalFilenameChars.contains c)) := by
          simpa [removeIllegal] using hc
        have := List.of_mem_filter hc'
        simpa using this
    · by_cases hz : removeIllegal (collapseWs (pyStripList (pyStr x).data)) = []
      · simp [clean_filename, h', hz]
      · simp only [clean_filename, h', Bool.false_eq_true, if_false, if_neg hz]
        intro hcontra
        exact hz (congrArg String.data hcontra)

theorem clean_filename_amended_witness :
    is_blank (.vStr "A/B\\C") = false ∧ clean_filename (.vStr "A/B\\C") = "ABC" :=
  ⟨by decide, ((clean_filename_amended (.vStr "A/B\\C")).2.1 (by decide)).trans (by decide)⟩

/-! ## C6: amount normalization -/

def digitsToNat (l : List Char) : ℕ := l.foldl (fun a c => a * 10 + (c.toNat - 48)) 0

/-- A plain decimal numeral (`[sign] digits [. digits]`, at least one digit),
the specification's "decimal number".  Named per the spec's words, to compare
with the source's host-language parse (`pyFloat`). -/
def parseDecimalNumber (s : String) : Option Frac :=
  let (neg, l) : Bool × List Char :=
    match s.data with
    | '+' :: t => (false, t)
    | '-' :: t => (true, t)
    | t => (false, t)
  let ip := l.takeWhile Char.isDigit
  let rest := l.dropWhile Char.isDigit
  let fr? : Option (List Char) :=
    match rest with
    | [] => if ip ≠ [] then some [] else none
    | '.' :: fr =>
      if fr.all Char.isDigit && (ip ≠ [] || fr ≠ []) then some fr else none
    | _ => none
  match fr? with
  | none => none
  | some fr =>
    let v : ℤ := ((digitsToNat ip * 10 ^ fr.length + digitsToNat fr : ℕ) : ℤ)
    some ⟨if neg then -v else v, 10 ^ fr.length⟩

/-- C6 counterexample: `"inf"` is not blank and is not a decimal numeral, so
the claim requires `"0.00"`; the code's host-language `float("inf")` succeeds
and the result is the string `"inf"`. -/
theorem normalize_amount_inf_cex :
    is_blank (.vStr "inf") = false
  ∧ parseDecimalNumber "inf" = none
  ∧ normalize_amount (.vStr "inf") = "inf"
  ∧ normalize_amount (.vStr "inf") ≠ "0.00" := by decide

/-- Does the string end in a dot followed by exactly two decimal digits? -/
def endsWith2Dec (r : String) : Bool :=
  match r.data.reverse with
  | b :: a :: c :: _ => a.isDigit && b.isDigit && c = '.'
  | _ => false

theorem twoDigitsStr_shape : ∀ m : ℕ, m < 100 →
    (match (twoDigitsStr m).data with
     | [a, b] => a.isDigit && b.isDigit
     | _ => false) = true := by
  decide

theorem fmtMag2_shape (q : Frac) : endsWith2Dec (fmtMag2 q) = true := by
  unfold fmtMag2
  set n := (roundHalfEven (Frac.mul ⟨100, 1⟩ q)).toNat with hn
  have hlt : n % 100 < 100 := Nat.mod_lt _ (by norm_num)
  have h := twoDigitsStr_shape (n % 100) hlt
  obtain ⟨a, b, hab⟩ : ∃ a b, (twoDigitsStr (n % 100)).data = [a, b] := by
    rcases hd : (twoDigitsStr (n % 100)).data with _ | ⟨a, _ | ⟨b, _ | _⟩⟩ <;>
      rw [hd] at h <;> first | exact ⟨_, _, rfl⟩ | cases h
  have hdigit : (a.isDigit && b.isDigit) = true := by rw [hab] at h; exact h
  show endsWith2Dec (natGrouped (n / 100) ++ "." ++ twoDigitsStr (n % 100)) = true
  unfold endsWith2Dec
  rw [String.data_append, String.data_append, hab]
  simp only [List.reverse_append]
  simp [hdigit, Bool.and_true, show ("." : String).data = ['.'] from rfl]

/-- Appending on the left preserves the two-decimal tail shape. -/
theorem endsWith2Dec_append_left (s t : String) (h : endsWith2Dec t = true) :
    endsWith2Dec (s ++ t) = true := by
  unfold endsWith2Dec at h ⊢
  rw [String.data_append, List.reverse_append]
  rcases hd : t.data.reverse with _ | ⟨b, _ | ⟨a, _ | ⟨c, rest⟩⟩⟩ <;> rw [hd] at h <;>
    first | cases h | (simp only [List.cons_append]; exact h)

/-- C6 amended: blank input gives `"0.00"` and a failed host-language float
parse gives `"0.00"`, as claimed; but the parse accepts infinities, NaN and
underscore/exponent forms, and a finite value is re-rendered from its
binary64 approximation (ties of the stored binary value to even), with
thousands separators and exactly two decimal places.  So `"1234.5"` still
gives `"1,234.50"`, while `"inf"` gives `"inf"`, `"+nan"` gives `"nan"`, and
`"-0"` gives `"-0.00"`. -/
theorem normalize_amount_amended (x : CellValue) :
    (is_blank x = true → normalize_amount x = "0.00")
  ∧ (is_blank x = false →
      (pyFloat (pyStrip ⟨(pyStr x).data.filter (fun c => c ≠ ',')⟩) = none →
          normalize_amount x = "0.00")
    ∧ (pyFloat (pyStrip ⟨(pyStr x).data.filter (fun c => c ≠ ',')⟩) = some .inf →
          normalize_amount x = "inf")
    ∧ (pyFloat (pyStrip ⟨(pyStr x).data.filter (fun c => c ≠ ',')⟩) = some .neginf →
          normalize_amount x = "-inf")
    ∧ (pyFloat (pyStrip ⟨(pyStr x).data.filter (fun c => c ≠ ',')⟩) = some .nan →
          normalize_amount x = "nan")
    ∧ (pyFloat (pyStrip ⟨(pyStr x).data.filter (fun c => c ≠ ',')⟩) = some .negzero →
          normalize_amount x = "-0.00")
    ∧ (∀ q, pyFloat (pyStrip ⟨(pyStr x).data.filter (fun c => c ≠ ',')⟩) = some (.finite q) →
          normalize_amount x = pyFormatComma2 (.finite q)
          ∧ endsWith2Dec (normalize_amount x) = true)) := by
  by_cases h : is_blank x = true
  · refine ⟨?_, ?_⟩
    · exact fun _ => by simp [normalize_amount, h]
    · intro h'
      rw [h] at h'
      cases h'
  · have h' : is_blank x = false := by simpa using h
    refine ⟨?_, fun _ => ?_⟩
    · intro hc
      rw [h'] at hc
      cases hc
    have hdef : normalize_amount x =
        match pyFloat (pyStrip ⟨(pyStr x).data.filter (fun c => c ≠ ',')⟩) with
        | none => "0.00"
        | some f => pyFormatComma2 f := by
      simp [normalize_amount, h']
    refine ⟨fun hp => by rw [hdef, hp], fun hp => by rw [hdef, hp]; rfl,
      fun hp => by rw [hdef, hp]; rfl, fun hp => by rw [hdef, hp]; rfl,
      fun hp => by rw [hdef, hp]; rfl, fun q hp => ⟨by rw [hdef, hp], ?_⟩⟩
    rw [hdef, hp]
    show endsWith2Dec (pyFormatComma2 (.finite q)) = true
    unfold pyFormatComma2
    by_cases hq : q.isNeg = true
    · simp only [hq, if_true]
      exact endsWith2Dec_append_left _ _ (fmtMag2_shape q.neg)
    · simp only [Bool.not_eq_true] at hq
      simp only [hq, Bool.false_eq_true, if_false]
      exact fmtMag2_shape q

theorem normalize_amount_amended_witness :
    is_blank (.vStr "1234.5") = false
  ∧ pyFloat (pyStrip ⟨(pyStr (.vStr "1234.5")).data.filter (fun c => c ≠ ',')⟩)
      = some (.finite ⟨5429388417957888, 4398046511104⟩)
  ∧ normalize_amount (.vStr "1234.5") = "1,234.50" :=
  ⟨by decide, by decide,
    (((normalize_amount_amended (.vStr "1234.5")).2 (by decide)).2.2.2.2.2
        ⟨5429388417957888, 4398046511104⟩ (by decide)).1.trans (by decide)⟩

/-! ## C3: the percent computation -/

/-- C3 evidence: at `done = 29, total = 100` (reachable: a 100-row job polled
after 29 rows) the endpoint's `int((done / total) * 100)` evaluates the
binary64 product `(29/100)*100 = 28.999999999999996` and truncates it to 28,
while the specified `⌊100·29/100⌋` is 29. -/
theorem progress_percent_float_slip :
    progressPercent { jobInit with total_recipients := 100, done_recipients := 29 } = some 28
  ∧ (100 * 29) / 100 = 29
  ∧ progressPercent { jobInit with total_recipients := 0, done_recipients := 0 } = some 0 := by
  decide

/-! ## C9: the download endpoint -/

def isBadRequest : Except ApiErr (List (String × PdfDoc)) → Bool
  | .error (.badRequest _) => true
  | _ => false

/-- The terminal state of a job whose single row failed with an exception
whose message is the empty string. -/
def stEmptyErr : JobState :=
  { total_recipients := 1, done_recipients := 0, status := "Error",
    finished := true, error := some "", zip_bytes := none }

/-- C9 counterexample: a failed job whose stored error message is the empty
string is reachable (a worker run whose row exception has an empty `str`),
and the download endpoint's `if st.error:` treats it as falsy, so the
response is 500 (`internal`), not the claimed 400 (`badRequest`). -/
theorem download_empty_error_cex :
    (runJobStates envEmptyMsgEx).getLast? = some stEmptyErr
  ∧ stEmptyErr.finished = true ∧ stEmptyErr.error = some ""
  ∧ download (some stEmptyErr) = .error .internal
  ∧ isBadRequest (download (some stEmptyErr)) = false :=
  ⟨by decide, rfl, rfl, rfl, rfl⟩

/-- C9 amended: unknown/reclaimed id → 404; not finished → 409; finished with
a NON-EMPTY stored error → 400 exposing the message; finished with no error
(or an empty-string error, which Python truthiness treats as no error) →
500 when no (or empty) archive bytes are stored, otherwise the archive
bytes. -/
theorem download_amended (st? : Option JobState) :
    (st? = none → download st? = .error .notFound)
  ∧ (∀ st, st? = some st →
      (st.finished = false → download st? = .error .conflict)
    ∧ (st.finished = true → ∀ e, st.error = some e → e ≠ "" →
        download st? = .error (.badRequest ("Job failed: " ++ e)))
    ∧ (st.finished = true → (st.error = none ∨ st.error = some "") →
        ((st.zip_bytes = none ∨ st.zip_bytes = some [] → download st? = .error .internal)
        ∧ (∀ z, st.zip_bytes = some z → z ≠ [] → download st? = .ok z)))) := by
  constructor
  · intro h
    rw [h]
    rfl
  · intro st hst
    rw [hst]
    refine ⟨?_, ?_, ?_⟩
    · intro hf
      simp [download, hf]
    · intro hf e he hne
      simp [download, hf, he, hne]
    · intro hf herr
      constructor
      · intro hz
        rcases herr with h0 | h0 <;> rcases hz with h1 | h1 <;> simp [download, hf, h0, h1]
      · intro z hz hzne
        rcases herr with h0 | h0 <;>
          simp [download, hf, h0, hz, List.isEmpty_iff, hzne]

theorem download_amended_witness : download none = .error .notFound :=
  (download_amended none).1 rfl

/-! ## C10: missing template -/

/-- C10: with the template file absent, the worker's first guard aborts the
job before the spreadsheet is even parsed: the whole trace is the initial
state plus the terminal error state, whose message begins
"Missing template on server", with both counters still 0. -/
theorem missing_template_aborts (env : WorkerEnv) (h : env.templateExists = false) :
    runJobStates env = [jobInit,
      failState jobInit ("Missing template on server: " ++ env.cwd ++ "/" ++ TEMPLATE_NAME)]
  ∧ (failState jobInit
      ("Missing template on server: " ++ env.cwd ++ "/" ++ TEMPLATE_NAME)).total_recipients = 0
  ∧ (failState jobInit
      ("Missing template on server: " ++ env.cwd ++ "/" ++ TEMPLATE_NAME)).done_recipients = 0
  ∧ (failState jobInit
      ("Missing template on server: " ++ env.cwd ++ "/" ++ TEMPLATE_NAME)).finished = true
  ∧ (failState jobInit
      ("Missing template on server: " ++ env.cwd ++ "/" ++ TEMPLATE_NAME)).status = "Error"
  ∧ ∃ rest, (failState jobInit
      ("Missing template on server: " ++ env.cwd ++ "/" ++ TEMPLATE_NAME)).error
        = some ("Missing template on server" ++ rest) := by
  refine ⟨?_, rfl, rfl, rfl, rfl, ?_⟩
  · simp [runJobStates, h]
  · -- the message literally begins with the quoted text
    exact ⟨": " ++ env.cwd ++ "/" ++ TEMPLATE_NAME, rfl⟩

theorem missing_template_aborts_witness :
    envNoTmplEx.templateExists = false
  ∧ runJobStates envNoTmplEx = [jobInit,
      failState jobInit
        ("Missing template on server: " ++ envNoTmplEx.cwd ++ "/" ++ TEMPLATE_NAME)] :=
  ⟨by decide, (missing_template_aborts envNoTmplEx (by decide)).1⟩

/-! ## Lemmas about the per-row trace -/

theorem rowsTrace_ne_nil (fe : ℕ → Option String) (tpl : PdfDoc) (total idx : ℕ)
    (rows : List Row) (s : JobState) (acc : List (String × PdfDoc)) :
    rowsTrace fe tpl total idx rows s acc ≠ [] := by
  cases rows with
  | nil => simp [rowsTrace]
  | cons r rs => cases h : fe idx <;> simp [rowsTrace, h]

/-- Along the loop, `done_recipients` never decreases (entering with
`s.done_recipients + 1 = idx`, which the worker establishes by starting at
`done = 0`, `idx = 1`). -/
theorem rowsTrace_chain_done (fe : ℕ → Option String) (tpl : PdfDoc) (total : ℕ) :
    ∀ (rows : List Row) (idx : ℕ) (s : JobState) (acc : List (String × PdfDoc)),
      s.done_recipients + 1 = idx →
      List.Chain' (fun a b => a.done_recipients ≤ b.done_recipients)
        (s :: rowsTrace fe tpl total idx rows s acc) := by
  intro rows
  induction rows with
  | nil =>
    intro idx s acc _
    simp only [rowsTrace]
    exact List.chain'_cons.mpr ⟨le_refl _, List.chain'_singleton _⟩
  | cons r rs ih =>
    intro idx s acc h
    cases hfe : fe idx with
    | some e =>
      simp only [rowsTrace, hfe]
      exact List.chain'_cons.mpr ⟨le_refl _,
        List.chain'_cons.mpr ⟨le_refl _, List.chain'_singleton _⟩⟩
    | none =>
      simp only [rowsTrace, hfe]
      refine List.chain'_cons.mpr ⟨le_refl _, List.chain'_cons.mpr ⟨?_, ?_⟩⟩
      · show s.done_recipients ≤ idx
        omega
      · exact ih (idx + 1) _ _ rfl

/-- Along the loop, `done_recipients` never exceeds `total_recipients`. -/
theorem rowsTrace_done_le_total (fe : ℕ → Option String) (tpl : PdfDoc) (total : ℕ) :
    ∀ (rows : List Row) (idx : ℕ) (s : JobState) (acc : List (String × PdfDoc)),
      s.total_recipients = total → s.done_recipients ≤ total →
      idx + rows.length = total + 1 →
      ∀ x ∈ rowsTrace fe tpl total idx rows s acc,
        x.done_recipients ≤ x.total_recipients := by
  intro rows
  induction rows with
  | nil =>
    intro idx s acc ht hd _ x hx
    simp only [rowsTrace, List.mem_singleton] at hx
    subst hx
    show s.done_recipients ≤ s.total_recipients
    omega
  | cons r rs ih =>
    intro idx s acc ht hd hlen x hx
    obtain ⟨st, sd, ss, sf, se, sz⟩ := s
    simp only at ht hd
    have hidx : idx ≤ total := by
      simp only [List.length_cons] at hlen
      omega
    cases hfe : fe idx with
    | some e =>
      simp only [rowsTrace, hfe, List.mem_cons, List.mem_singleton, failState] at hx
      rcases hx with rfl | rfl | h
      · simp only
        omega
      · simp only
        omega
      · cases h
    | none =>
      simp only [rowsTrace, hfe, List.mem_cons] at hx
      rcases hx with rfl | rfl | h
      · simp only
        omega
      · simp only
        omega
      · exact ih (idx + 1)
          ⟨st, idx, fillingStatus (clean_filename (rowGet r COL_RECIPIENT)) idx total, sf, se, sz⟩
          (acc ++ zipEntriesFor tpl r) ht hidx
          (by simp only [List.length_cons] at hlen ⊢; omega) x h

/-- Every state of the loop except the final one has the terminal flag
unset. -/
theorem rowsTrace_dropLast_unfinished (fe : ℕ → Option String) (tpl : PdfDoc) (total : ℕ) :
    ∀ (rows : List Row) (idx : ℕ) (s : JobState) (acc : List (String × PdfDoc)),
      s.finished = false →
      ∀ x ∈ (rowsTrace fe tpl total idx rows s acc).dropLast, x.finished = false := by
  intro rows
  induction rows with
  | nil =>
    intro idx s acc _ x hx
    simp [rowsTrace] at hx
  | cons r rs ih =>
    intro idx s acc hs x hx
    obtain ⟨st, sd, ss, sf, se, sz⟩ := s
    simp only at hs
    subst hs
    cases hfe : fe idx with
    | some e =>
      simp only [rowsTrace, hfe, List.dropLast, List.mem_singleton] at hx
      subst hx
      rfl
    | none =>
      simp only [rowsTrace, hfe] at hx
      rcases hT : rowsTrace fe tpl total (idx + 1) rs
          ⟨st, idx, fillingStatus (clean_filename (rowGet r COL_RECIPIENT)) idx total,
            false, se, sz⟩ (acc ++ zipEntriesFor tpl r) with _ | ⟨t, ts⟩
      · exact absurd hT (rowsTrace_ne_nil _ _ _ _ _ _ _)
      · rw [hT, List.dropLast_cons₂, List.dropLast_cons₂, List.mem_cons, List.mem_cons] at hx
        rcases hx with rfl | rfl | h
        · rfl
        · rfl
        · have := ih (idx + 1)
            ⟨st, idx, fillingStatus (clean_filename (rowGet r COL_RECIPIENT)) idx total,
              false, se, sz⟩ (acc ++ zipEntriesFor tpl r) rfl x
          rw [hT] at this
          exact this h

theorem getLast?_cons_cons_of_getLast? {α : Type} (a b : α) {y : α} {l : List α}
    (h : l.getLast? = some y) : (a :: b :: l).getLast? = some y := by
  rcases l with _ | ⟨c, cs⟩
  · cases h
  · rw [List.getLast?_cons_cons, List.getLast?_cons_cons]
    exact h

/-- The last state of the loop is terminal: on success the archive is stored
with no error and status "Completed", on a row exception the message is
stored with no archive and status "Error". -/
theorem rowsTrace_last (fe : ℕ → Option String) (tpl : PdfDoc) (total : ℕ) :
    ∀ (rows : List Row) (idx : ℕ) (s : JobState) (acc : List (String × PdfDoc)),
      s.error = none → s.zip_bytes = none →
      ∃ last, (rowsTrace fe tpl total idx rows s acc).getLast? = some last
        ∧ last.finished = true
        ∧ ((last.error = none ∧ last.status = "Completed" ∧ last.zip_bytes.isSome = true)
          ∨ (∃ m, last.error = some m ∧ last.status = "Error" ∧ last.zip_bytes = none)) := by
  intro rows
  induction rows with
  | nil =>
    intro idx s acc herr _
    refine ⟨{ s with zip_bytes := some acc, status := "Completed", finished := true },
      by simp [rowsTrace], rfl, Or.inl ⟨herr, rfl, rfl⟩⟩
  | cons r rs ih =>
    intro idx s acc herr hzip
    obtain ⟨st, sd, ss, sf, se, sz⟩ := s
    simp only at herr hzip
    subst herr
    subst hzip
    cases hfe : fe idx with
    | some e =>
      refine ⟨⟨st, sd, "Error", true, some e, none⟩,
        by simp [rowsTrace, hfe, failState], rfl, Or.inr ⟨e, rfl, rfl, rfl⟩⟩
    | none =>
      obtain ⟨last, hl, hfin, hdisj⟩ := ih (idx + 1)
        ⟨st, idx, fillingStatus (clean_filename (rowGet r COL_RECIPIENT)) idx total,
          sf, none, none⟩ (acc ++ zipEntriesFor tpl r) rfl rfl
      refine ⟨last, ?_, hfin, hdisj⟩
      simp only [rowsTrace, hfe]
      exact getLast?_cons_cons_of_getLast? _ _ hl

/-- With no row raising, the loop completes: the last state carries the whole
archive (two entries per processed row), status "Completed", and
`done = done₀ + number of rows`. -/
theorem rowsTrace_success (fe : ℕ → Option String) (tpl : PdfDoc) (total : ℕ)
    (hfe : ∀ i, fe i = none) :
    ∀ (rows : List Row) (idx : ℕ) (s : JobState) (acc : List (String × PdfDoc)),
      s.done_recipients + 1 = idx →
      (rowsTrace fe tpl total idx rows s acc).getLast? = some
        { s with
          done_recipients := s.done_recipients + rows.length,
          status := "Completed", finished := true,
          zip_bytes := some (acc ++ rows.flatMap (zipEntriesFor tpl)) } := by
  intro rows
  induction rows with
  | nil =>
    intro idx s acc _
    obtain ⟨st, sd, ss, sf, se, sz⟩ := s
    simp [rowsTrace]
  | cons r rs ih =>
    intro idx s acc h
    obtain ⟨st, sd, ss, sf, se, sz⟩ := s
    simp only at h
    simp only [rowsTrace, hfe idx]
    have h2 := ih (idx + 1)
      ⟨st, idx, fillingStatus (clean_filename (rowGet r COL_RECIPIENT)) idx total,
        sf, se, sz⟩ (acc ++ zipEntriesFor tpl r) rfl
    refine (getLast?_cons_cons_of_getLast? _ _ h2).trans ?_
    simp only [Option.some.injEq, JobState.mk.injEq, List.append_assoc, List.flatMap_cons,
      List.length_cons, and_true, true_and]
    omega

/-- A chain relation guarded by `finished = true` holds whenever all states
but the last are unfinished. -/
theorem chain'_of_dropLast_unfinished (Q : JobState → JobState → Prop) :
    ∀ l : List JobState, (∀ x ∈ l.dropLast, x.finished = false) →
      List.Chain' (fun a b => a.finished = true → Q a b) l
  | [], _ => List.chain'_nil
  | [a], _ => List.chain'_singleton a
  | a :: b :: t, h => by
    refine List.chain'_cons.mpr ⟨?_, ?_⟩
    · intro hfin
      have ha : a.finished = false :=
        h a (by rw [List.dropLast_cons₂]; exact List.mem_cons_self a _)
      rw [ha] at hfin
      cases hfin
    · exact chain'_of_dropLast_unfinished Q (b :: t)
        (fun x hx => h x (by rw [List.dropLast_cons₂]; exact List.mem_cons_of_mem a hx))

/-- Every member of a list is in its `dropLast` or is its last element. -/
theorem mem_dropLast_or_getLast? (x : JobState) (l : List JobState) (hx : x ∈ l) :
    x ∈ l.dropLast ∨ l.getLast? = some x := by
  have hne : l ≠ [] := List.ne_nil_of_mem hx
  rw [← List.dropLast_append_getLast hne] at hx
  rcases List.mem_append.mp hx with h | h
  · exact Or.inl h
  · right
    rw [List.getLast?_eq_getLast l hne]
    simp only [List.mem_singleton] at h
    rw [h]

/-- The state the worker writes when it starts generating
(src/main.py:607-611). -/
def genState (n : ℕ) : JobState :=
  { jobInit with total_recipients := n, done_recipients := 0, status := "Generating…" }

/-! Reductions of `runJobStates` under each guard. -/

theorem runJobStates_no_template (env : WorkerEnv) (ht : env.templateExists = false) :
    runJobStates env = [jobInit, failState jobInit
      ("Missing template on server: " ++ env.cwd ++ "/" ++ TEMPLATE_NAME)] := by
  simp only [runJobStates, ht]
  rfl

theorem runJobStates_parse_error (env : WorkerEnv) (e : String)
    (ht : env.templateExists = true) (hp : env.parsed = .error e) :
    runJobStates env = [jobInit, failState jobInit e] := by
  simp only [runJobStates, ht, hp]
  rfl

theorem runJobStates_missing_cols (env : WorkerEnv) (df : Frame)
    (ht : env.templateExists = true) (hp : env.parsed = .ok df)
    (hm : [COL_RECIPIENT, COL_YEAR].filter (fun c => !df.cols.contains c) ≠ []) :
    runJobStates env = [jobInit, failState jobInit
      (missingColsMsg ([COL_RECIPIENT, COL_YEAR].filter (fun c => !df.cols.contains c)))] := by
  simp only [runJobStates, ht, hp]
  rw [if_neg (by decide : ¬((!true : Bool) = true))]
  rw [if_pos hm]

theorem runJobStates_no_rows (env : WorkerEnv) (df : Frame)
    (ht : env.templateExists = true) (hp : env.parsed = .ok df)
    (hm : [COL_RECIPIENT, COL_YEAR].filter (fun c => !df.cols.contains c) = [])
    (hr : df.rows.filter (fun r => !row_all_blank r df.cols) = []) :
    runJobStates env = [jobInit,
      failState jobInit "No usable recipient rows found in Excel."] := by
  simp only [runJobStates, ht, hp]
  rw [if_neg (by decide : ¬((!true : Bool) = true))]
  rw [hm, if_neg (fun hcon => hcon rfl), if_pos hr]

theorem runJobStates_main (env : WorkerEnv) (df : Frame)
    (ht : env.templateExists = true) (hp : env.parsed = .ok df)
    (hm : [COL_RECIPIENT, COL_YEAR].filter (fun c => !df.cols.contains c) = [])
    (hr : df.rows.filter (fun r => !row_all_blank r df.cols) ≠ []) :
    runJobStates env = jobInit ::
      genState (df.rows.filter (fun r => !row_all_blank r df.cols)).length ::
      rowsTrace env.fillErr env.template
        (df.rows.filter (fun r => !row_all_blank r df.cols)).length 1
        (df.rows.filter (fun r => !row_all_blank r df.cols))
        (genState (df.rows.filter (fun r => !row_all_blank r df.cols)).length) [] := by
  simp only [runJobStates, ht, hp]
  rw [if_neg (by decide : ¬((!true : Bool) = true))]
  rw [hm, if_neg (fun hcon => hcon rfl), if_neg hr]
  rfl

/-- Every run of the worker either aborts on a guard (template, parse,
required columns, zero usable rows) with a two-state trace, or reaches the
per-row loop on a nonempty filtered row list. -/
theorem runJobStates_shape (env : WorkerEnv) :
    (∃ m, runJobStates env = [jobInit, failState jobInit m])
  ∨ (∃ rows : List Row, rows ≠ [] ∧
      runJobStates env = jobInit :: genState rows.length ::
        rowsTrace env.fillErr env.template rows.length 1 rows (genState rows.length) []) := by
  cases ht : env.templateExists with
  | false => exact Or.inl ⟨_, runJobStates_no_template env ht⟩
  | true =>
    cases hp : env.parsed with
    | error e => exact Or.inl ⟨e, runJobStates_parse_error env e ht hp⟩
    | ok df =>
      by_cases hm : [COL_RECIPIENT, COL_YEAR].filter (fun c => !df.cols.contains c) = []
      · by_cases hr : df.rows.filter (fun r => !row_all_blank r df.cols) = []
        · exact Or.inl ⟨_, runJobStates_no_rows env df ht hp hm hr⟩
        · exact Or.inr ⟨df.rows.filter (fun r => !row_all_blank r df.cols), hr,
            runJobStates_main env df ht hp hm hr⟩
      · exact Or.inl ⟨_, runJobStates_missing_cols env df ht hp hm⟩

/-- C2: along every worker trace, `done_recipients` is monotone and never
exceeds `total_recipients`; a terminal state freezes both counters and its
successors; a terminal state has the archive exactly when it has no error;
and the initial ("never started") state has the flag unset with neither
archive nor error. -/
theorem job_state_invariants (env : WorkerEnv) :
    (runJobStates env).head? = some jobInit
  ∧ jobInit.finished = false ∧ jobInit.error = none ∧ jobInit.zip_bytes = none
  ∧ List.Chain' (fun a b => a.done_recipients ≤ b.done_recipients) (runJobStates env)
  ∧ (∀ s ∈ runJobStates env, s.done_recipients ≤ s.total_recipients)
  ∧ List.Chain' (fun a b => a.finished = true →
      b.finished = true ∧ b.done_recipients = a.done_recipients
        ∧ b.total_recipients = a.total_recipients) (runJobStates env)
  ∧ (∀ s ∈ runJobStates env, s.finished = true →
      (s.zip_bytes.isSome = true ↔ s.error = none)) := by
  rcases runJobStates_shape env with ⟨m, hm⟩ | ⟨rows, hne, hm⟩
  · rw [hm]
    refine ⟨rfl, rfl, rfl, rfl, ?_, ?_, ?_, ?_⟩
    · exact List.chain'_cons.mpr ⟨Nat.le_refl 0, List.chain'_singleton _⟩
    · intro s hs
      rcases List.mem_cons.mp hs with rfl | hs
      · exact Nat.le_refl 0
      · rcases List.mem_singleton.mp hs with rfl
        exact Nat.le_refl 0
    · refine List.chain'_cons.mpr ⟨?_, List.chain'_singleton _⟩
      intro hfin
      cases hfin
    · intro s hs hfin
      rcases List.mem_cons.mp hs with rfl | hs
      · cases hfin
      · rcases List.mem_singleton.mp hs with rfl
        simp [failState, jobInit]
  · rw [hm]
    refine ⟨rfl, rfl, rfl, rfl, ?_, ?_, ?_, ?_⟩
    · exact List.chain'_cons.mpr ⟨Nat.le_refl 0,
        rowsTrace_chain_done env.fillErr env.template rows.length rows 1
          (genState rows.length) [] rfl⟩
    · intro s hs
      rcases List.mem_cons.mp hs with rfl | hs
      · exact Nat.le_refl 0
      rcases List.mem_cons.mp hs with rfl | hs
      · exact Nat.zero_le _
      · exact rowsTrace_done_le_total env.fillErr env.template rows.length rows 1
          (genState rows.length) [] rfl (Nat.zero_le _) (by omega) s hs
    · apply chain'_of_dropLast_unfinished
      intro x hx
      rcases hT : rowsTrace env.fillErr env.template rows.length 1 rows
          (genState rows.length) [] with _ | ⟨t, ts⟩
      · exact absurd hT (rowsTrace_ne_nil _ _ _ _ _ _ _)
      · rw [hT, List.dropLast_cons₂, List.dropLast_cons₂] at hx
        rcases List.mem_cons.mp hx with rfl | hx
        · rfl
        rcases List.mem_cons.mp hx with rfl | hx
        · rfl
        · have := rowsTrace_dropLast_unfinished env.fillErr env.template rows.length
            rows 1 (genState rows.length) [] rfl x
          rw [hT] at this
          exact this hx
    · intro s hs hfin
      rcases List.mem_cons.mp hs with rfl | hs
      · cases hfin
      rcases List.mem_cons.mp hs with rfl | hs
      · cases hfin
      · rcases mem_dropLast_or_getLast? s _ hs with hd | hl
        · have := rowsTrace_dropLast_unfinished env.fillErr env.template rows.length
            rows 1 (genState rows.length) [] rfl s hd
          rw [this] at hfin
          cases hfin
        · obtain ⟨last, hl', _, hdisj⟩ := rowsTrace_last env.fillErr env.template
            rows.length rows 1 (genState rows.length) [] rfl rfl
          rw [hl'] at hl
          injection hl with hlast
          subst hlast
          rcases hdisj with ⟨he, _, hz⟩ | ⟨m, he, _, hz⟩
          · rw [he, hz]
            simp
          · rw [he, hz]
            simp

theorem job_state_invariants_witness :
    (failState jobInit "boom" ∈ runJobStates envParseErrEx)
  ∧ ((failState jobInit "boom").zip_bytes.isSome = true
      ↔ (failState jobInit "boom").error = none) :=
  ⟨by decide,
    (job_state_invariants envParseErrEx).2.2.2.2.2.2.2 (failState jobInit "boom")
      (by decide) (by decide)⟩

/-- C4: no run of the worker ends non-terminal (the trace function being
total is the embedding of "no exception propagates to a caller"): the final
state always has the terminal flag set, and is either a success (archive
stored, no error, status "Completed") or a recorded failure (the exception's
message stored, no archive, status "Error").  In particular a spreadsheet
parse exception's own message is what gets recorded. -/
theorem worker_traps_all_exceptions (env : WorkerEnv) :
    ∃ last, (runJobStates env).getLast? = some last
      ∧ last.finished = true
      ∧ ((last.error = none ∧ last.status = "Completed" ∧ last.zip_bytes.isSome = true)
        ∨ (∃ m, last.error = some m ∧ last.status = "Error" ∧ last.zip_bytes = none))
      ∧ (env.templateExists = true → ∀ e, env.parsed = .error e → last.error = some e) := by
  cases ht : env.templateExists with
  | false =>
    refine ⟨failState jobInit
        ("Missing template on server: " ++ env.cwd ++ "/" ++ TEMPLATE_NAME),
      by rw [runJobStates_no_template env ht]; rfl, rfl, Or.inr ⟨_, rfl, rfl, rfl⟩, ?_⟩
    intro h
    cases h
  | true =>
    cases hp : env.parsed with
    | error e =>
      refine ⟨failState jobInit e, by rw [runJobStates_parse_error env e ht hp]; rfl, rfl,
        Or.inr ⟨e, rfl, rfl, rfl⟩, ?_⟩
      intro _ e' he'
      injection he' with h
      subst h
      rfl
    | ok df =>
      by_cases hm : [COL_RECIPIENT, COL_YEAR].filter (fun c => !df.cols.contains c) = []
      · by_cases hr : df.rows.filter (fun r => !row_all_blank r df.cols) = []
        · exact ⟨failState jobInit "No usable recipient rows found in Excel.",
            by rw [runJobStates_no_rows env df ht hp hm hr]; rfl, rfl,
            Or.inr ⟨_, rfl, rfl, rfl⟩, fun _ e he => by simp at he⟩
        · obtain ⟨last, hl, hfin, hdisj⟩ := rowsTrace_last env.fillErr env.template
            (df.rows.filter (fun r => !row_all_blank r df.cols)).length
            (df.rows.filter (fun r => !row_all_blank r df.cols)) 1
            (genState (df.rows.filter (fun r => !row_all_blank r df.cols)).length) [] rfl rfl
          refine ⟨last, ?_, hfin, hdisj, fun _ e he => by simp at he⟩
          have hshape : runJobStates env = jobInit ::
              genState (df.rows.filter (fun r => !row_all_blank r df.cols)).length ::
              rowsTrace env.fillErr env.template
                (df.rows.filter (fun r => !row_all_blank r df.cols)).length 1
                (df.rows.filter (fun r => !row_all_blank r df.cols))
                (genState (df.rows.filter (fun r => !row_all_blank r df.cols)).length) [] :=
            runJobStates_main env df ht hp hm hr
          rw [hshape]
          exact getLast?_cons_cons_of_getLast? _ _ hl
      · exact ⟨failState jobInit
            (missingColsMsg ([COL_RECIPIENT, COL_YEAR].filter (fun c => !df.cols.contains c))),
          by rw [runJobStates_missing_cols env df ht hp hm]; rfl, rfl,
          Or.inr ⟨_, rfl, rfl, rfl⟩, fun _ e he => by simp at he⟩

theorem worker_traps_all_exceptions_witness :
    ((runJobStates envParseErrEx).getLast?.map JobState.error) = some (some "boom") := by
  obtain ⟨last, hl, _, _, hrec⟩ := worker_traps_all_exceptions envParseErrEx
  have hb := hrec rfl "boom" rfl
  rw [hl]
  simp [hb]

/-- Two archive entries are appended per processed row. -/
theorem zipEntries_flatMap_length (tpl : PdfDoc) (l : List Row) :
    (l.flatMap (zipEntriesFor tpl)).length = 2 * l.length := by
  induction l with
  | nil => rfl
  | cons r rs ih =>
    simp only [List.flatMap_cons, List.length_append, ih, List.length_cons]
    have : (zipEntriesFor tpl r).length = 2 := rfl
    omega

theorem filter_length_split {α : Type} (p : α → Bool) (l : List α) :
    (l.filter (fun a => !(p a))).length + (l.filter p).length = l.length := by
  induction l with
  | nil => rfl
  | cons a t ih =>
    cases h : p a <;> simp [List.filter_cons, h] <;> omega

/-- C8: with R uploaded rows of which B are fully blank, a successful run
sets `total_recipients = R - B`, finishes with `done = total` and no error,
and archives two entries per usable row. -/
theorem usable_rows_counts (env : WorkerEnv) (df : Frame)
    (htmpl : env.templateExists = true) (hparse : env.parsed = .ok df)
    (hr : df.cols.contains COL_RECIPIENT = true) (hy : df.cols.contains COL_YEAR = true)
    (hnz : df.rows.filter (fun r => !row_all_blank r df.cols) ≠ [])
    (hfe : ∀ i, env.fillErr i = none) :
    ∃ last, (runJobStates env).getLast? = some last
      ∧ last.total_recipients
          = df.rows.length - (df.rows.filter (fun r => row_all_blank r df.cols)).length
      ∧ last.done_recipients = last.total_recipients
      ∧ last.finished = true ∧ last.error = none
      ∧ ∃ entries, last.zip_bytes = some entries
          ∧ entries.length = 2 * last.total_recipients := by
  have hm : [COL_RECIPIENT, COL_YEAR].filter (fun c => !df.cols.contains c) = [] := by
    simp only [List.filter_cons, List.filter_nil, hr, hy, Bool.not_true]
    rfl
  have hshape : runJobStates env = jobInit ::
      genState (df.rows.filter (fun r => !row_all_blank r df.cols)).length ::
      rowsTrace env.fillErr env.template
        (df.rows.filter (fun r => !row_all_blank r df.cols)).length 1
        (df.rows.filter (fun r => !row_all_blank r df.cols))
        (genState (df.rows.filter (fun r => !row_all_blank r df.cols)).length) [] :=
    runJobStates_main env df htmpl hparse hm hnz
  have hsucc := rowsTrace_success env.fillErr env.template
    (df.rows.filter (fun r => !row_all_blank r df.cols)).length hfe
    (df.rows.filter (fun r => !row_all_blank r df.cols)) 1
    (genState (df.rows.filter (fun r => !row_all_blank r df.cols)).length) [] rfl
  refine ⟨_, by rw [hshape]; exact getLast?_cons_cons_of_getLast? _ _ hsucc, ?_, ?_, rfl, rfl,
    ⟨_, rfl, ?_⟩⟩
  · show (df.rows.filter (fun r => !row_all_blank r df.cols)).length
        = df.rows.length - (df.rows.filter (fun r => row_all_blank r df.cols)).length
    have := filter_length_split (fun r => row_all_blank r df.cols) df.rows
    omega
  · show 0 + (df.rows.filter (fun r => !row_all_blank r df.cols)).length
        = (df.rows.filter (fun r => !row_all_blank r df.cols)).length
    omega
  · show ([] ++ (df.rows.filter (fun r => !row_all_blank r df.cols)).flatMap
        (zipEntriesFor env.template)).length
      = 2 * (df.rows.filter (fun r => !row_all_blank r df.cols)).length
    rw [List.nil_append, zipEntries_flatMap_length]

theorem usable_rows_counts_witness :
    envOkEx.parsed = .ok exFrame
  ∧ exFrame.cols.contains COL_RECIPIENT = true
  ∧ exFrame.cols.contains COL_YEAR = true
  ∧ exFrame.rows.filter (fun r => !row_all_blank r exFrame.cols) ≠ []
  ∧ ((runJobStates envOkEx).getLast?.map
      (fun s => (s.total_recipients, s.done_recipients, s.finished))) = some (2, 2, true) := by
  refine ⟨rfl, by decide, by decide, by decide, ?_⟩
  obtain ⟨last, hl, htot, hdone, hfin, _, _⟩ :=
    usable_rows_counts envOkEx exFrame rfl rfl (by decide) (by decide) (by decide)
      (fun i => rfl)
  rw [hl]
  show some (last.total_recipients, last.done_recipients, last.finished) = some (2, 2, true)
  rw [hdone, htot, hfin]
  decide

end NEC
